import Mathlib

/-!
Verification of the orchestration runtime (circuit breaker, rate limiter,
retry policy, condition evaluator, workflow routing, chat-history manager,
input validator) against its natural-language specification.

Each subsystem is embedded shallowly: the Python methods become pure Lean
functions over explicit state, clock readings become explicit integer
parameters (the code only ever compares clock differences against
configured thresholds, so exact integer arithmetic is faithful), and
Python exceptions become `Except` / explicit error results.
-/

/-! # Circuit breaker (src/mcp/d365_tool.py, class CircuitBreaker) -/

/-- The three states of `CircuitBreaker._state`
(`"closed"`, `"open"`, `"half-open"`). -/
inductive CBState where
  | closed
  | open_
  | halfOpen
  deriving DecidableEq, Repr

/-- State of `CircuitBreaker` (`src/mcp/d365_tool.py:96-123`):
`_failure_count`, `_failure_threshold`, `_recovery_timeout`, `_state`,
`_last_failure_time`.  Clock readings are integers. -/
structure CircuitBreaker where
  failure_count : Nat
  failure_threshold : Nat
  recovery_timeout : Int
  state : CBState
  last_failure_time : Option Int
  deriving DecidableEq, Repr

/-- `CircuitBreaker.__init__`: count 0, state closed, no failure time. -/
def CircuitBreaker.init (failure_threshold : Nat) (recovery_timeout : Int) :
    CircuitBreaker :=
  { failure_count := 0
    failure_threshold := failure_threshold
    recovery_timeout := recovery_timeout
    state := .closed
    last_failure_time := none }

/-- Outcome of one `CircuitBreaker.call`: the `CircuitBreakerOpen` exception,
a normal return, or the wrapped function's exception re-raised. -/
inductive CBCallResult where
  | circuitOpenError
  | success
  | failureRaised
  deriving DecidableEq, Repr

/-- One execution of `CircuitBreaker.call` (`src/mcp/d365_tool.py:125-178`).
`tCheck` is the `time.time()` reading in the admission check, `ok` says
whether the wrapped `func` succeeds, `tFail` is the `time.time()` reading in
the failure handler.  Returns the raised/returned result, whether `func`
was invoked, and the new breaker state.

In the open state the Python reads `self._last_failure_time`; that field is
always set when the open state is entered, so the `none` case below is
unreachable there (the Python would raise a `TypeError`); it is mapped to a
rejection. -/
def CircuitBreaker.call (cb : CircuitBreaker) (tCheck : Int) (ok : Bool)
    (tFail : Int) : CBCallResult × Bool × CircuitBreaker :=
  let admitted : Option CircuitBreaker :=
    match cb.state, cb.last_failure_time with
    | .open_, some lft =>
        if tCheck - lft > cb.recovery_timeout then
          some { cb with state := .halfOpen }
        else
          none
    | .open_, none => none
    | _, _ => some cb
  match admitted with
  | none => (.circuitOpenError, false, cb)
  | some cb1 =>
      if ok then
        (.success, true, { cb1 with failure_count := 0, state := .closed })
      else
        let fc := cb1.failure_count + 1
        (.failureRaised, true,
          { cb1 with
              failure_count := fc
              last_failure_time := some tFail
              state := if cb1.failure_threshold ≤ fc then .open_ else cb1.state })

/-- Run a sequence of consecutive failing calls through the breaker, one at
each listed clock reading (used for both the admission check and the failure
record of that call).  Returns each call's (result, invoked) pair and the
final breaker state. -/
def CircuitBreaker.runFailures (cb : CircuitBreaker) :
    List Int → List (CBCallResult × Bool) × CircuitBreaker
  | [] => ([], cb)
  | t :: rest =>
      let step := cb.call t false t
      let tail := step.2.2.runFailures rest
      ((step.1, step.2.1) :: tail.1, tail.2)

theorem listGetLastD_congr {α : Type} (l : List α) (h : l ≠ []) (a b : α) :
    l.getLastD a = l.getLastD b := by
  cases l with
  | nil => exact absurd rfl h
  | cons x xs => rw [List.getLastD_cons, List.getLastD_cons]

theorem listGetLastQgetD_congr {α : Type} (l : List α) (h : l ≠ []) (a b : α) :
    l.getLast?.getD a = l.getLast?.getD b := by
  cases hg : l.getLast? with
  | some x => rfl
  | none =>
      have h2 := List.getLast?_isSome.mpr h
      rw [hg] at h2
      simp at h2

theorem CircuitBreaker.call_closed_failure (cb : CircuitBreaker) (t tf : Int)
    (h : cb.state = .closed) :
    cb.call t false tf =
      (.failureRaised, true,
        { cb with
            failure_count := cb.failure_count + 1
            last_failure_time := some tf
            state :=
              if cb.failure_threshold ≤ cb.failure_count + 1 then .open_
              else .closed }) := by
  simp [CircuitBreaker.call, h]

theorem CircuitBreaker.runFailures_closed (ts : List Int) :
    ∀ cb : CircuitBreaker, cb.state = .closed →
    cb.failure_count + ts.length ≤ cb.failure_threshold →
    (∀ r ∈ (cb.runFailures ts).1, r = (.failureRaised, true)) ∧
    (cb.runFailures ts).2 =
      { cb with
          failure_count := cb.failure_count + ts.length
          last_failure_time :=
            if ts = [] then cb.last_failure_time else some (ts.getLastD 0)
          state :=
            if cb.failure_count + ts.length = cb.failure_threshold ∧ ts ≠ []
            then .open_ else .closed } := by
  induction ts with
  | nil =>
      intro cb hstate _
      refine ⟨by simp [CircuitBreaker.runFailures], ?_⟩
      simp [CircuitBreaker.runFailures, ← hstate]
  | cons t rest ih =>
      intro cb hstate hbound
      have hstep := cb.call_closed_failure t t hstate
      by_cases hrest : rest = []
      · subst hrest
        simp only [List.length_cons, List.length_nil, Nat.zero_add] at hbound ⊢
        refine ⟨?_, ?_⟩
        · intro r hr
          simp only [CircuitBreaker.runFailures, hstep, List.mem_singleton] at hr
          simp [hr]
        · by_cases hth : cb.failure_threshold ≤ cb.failure_count + 1
          · have heq : cb.failure_count + 1 = cb.failure_threshold := by omega
            simp [CircuitBreaker.runFailures, hstep, hth, heq]
          · have hne : ¬ (cb.failure_count + 1 = cb.failure_threshold) := by
              omega
            simp [CircuitBreaker.runFailures, hstep, hth, hne]
      · -- more failures follow, so this one cannot yet reach the threshold
        have hlen1 : 1 ≤ rest.length := by
          cases rest with
          | nil => exact absurd rfl hrest
          | cons a l => simp
        have hlt : ¬ cb.failure_threshold ≤ cb.failure_count + 1 := by
          simp only [List.length_cons] at hbound
          omega
        have hcall : cb.call t false t =
            (.failureRaised, true,
              { cb with
                  failure_count := cb.failure_count + 1
                  last_failure_time := some t
                  state := .closed }) := by
          rw [hstep]; simp [hlt]
        have hbound1 :
            ({ cb with
                failure_count := cb.failure_count + 1
                last_failure_time := some t
                state := .closed } : CircuitBreaker).failure_count +
              rest.length ≤
            ({ cb with
                failure_count := cb.failure_count + 1
                last_failure_time := some t
                state := .closed } : CircuitBreaker).failure_threshold := by
          simp only [List.length_cons] at hbound
          simp
          omega
        have ihr := ih _ (by simp) hbound1
        refine ⟨?_, ?_⟩
        · intro r hr
          simp only [CircuitBreaker.runFailures, hcall, List.mem_cons] at hr
          rcases hr with hr | hr
          · simp [hr]
          · exact ihr.1 r hr
        · simp only [CircuitBreaker.runFailures, hcall]
          rw [ihr.2]
          have hgl : rest.getLastD t = rest.getLastD 0 :=
            listGetLastD_congr rest hrest t 0
          simp only [hrest, List.getLastD_cons, List.length_cons, hgl]
          have harith : cb.failure_count + 1 + rest.length =
              cb.failure_count + (rest.length + 1) := by omega
          by_cases hfin :
              cb.failure_count + (rest.length + 1) = cb.failure_threshold
          · simp [harith, hfin, hrest, hgl,
              listGetLastQgetD_congr rest hrest t 0]
          · simp [harith, hfin, hrest, hgl,
              listGetLastQgetD_congr rest hrest t 0]

/-- Claim C1: the circuit breaker follows the specified state machine:
it starts closed; after `failure_threshold` consecutive failing calls (each
of which was admitted and invoked the wrapped function) the breaker is open
with the last failure time recorded, and a call made while at most
`recovery_timeout` seconds have elapsed since the last failure fails with
the circuit-open error without invoking the wrapped function; once strictly
more than `recovery_timeout` seconds have elapsed, the next call is
admitted (half-open); if that admitted call succeeds the state is closed
with `failure_count` 0, and if it fails the state is open again with
`last_failure_time` updated. -/
theorem circuit_breaker_C1 (thr : Nat) (rto : Int) (ts : List Int)
    (hthr : 1 ≤ thr) (hlen : ts.length = thr) :
    (CircuitBreaker.init thr rto).state = .closed ∧
    (CircuitBreaker.init thr rto).failure_count = 0 ∧
    (∀ r ∈ ((CircuitBreaker.init thr rto).runFailures ts).1,
        r = (.failureRaised, true)) ∧
    ((CircuitBreaker.init thr rto).runFailures ts).2.state = .open_ ∧
    ((CircuitBreaker.init thr rto).runFailures ts).2.failure_count = thr ∧
    ((CircuitBreaker.init thr rto).runFailures ts).2.last_failure_time =
      some (ts.getLastD 0) ∧
    (∀ lt t ok tf,
      ((CircuitBreaker.init thr rto).runFailures ts).2.last_failure_time =
          some lt →
      t - lt ≤ rto →
      ((CircuitBreaker.init thr rto).runFailures ts).2.call t ok tf =
        (.circuitOpenError, false,
          ((CircuitBreaker.init thr rto).runFailures ts).2)) ∧
    (∀ lt t tf,
      ((CircuitBreaker.init thr rto).runFailures ts).2.last_failure_time =
          some lt →
      t - lt > rto →
      (((CircuitBreaker.init thr rto).runFailures ts).2.call t true tf =
        (.success, true,
          { ((CircuitBreaker.init thr rto).runFailures ts).2 with
              failure_count := 0
              state := .closed }) ∧
      (((CircuitBreaker.init thr rto).runFailures ts).2.call t false tf).1 =
        .failureRaised ∧
      (((CircuitBreaker.init thr rto).runFailures ts).2.call t false tf).2.1 =
        true ∧
      (((CircuitBreaker.init thr rto).runFailures ts).2.call t false tf).2.2.state =
        .open_ ∧
      (((CircuitBreaker.init thr rto).runFailures ts).2.call t false tf).2.2.last_failure_time =
        some tf)) := by
  have hne : ts ≠ [] := by
    intro h
    rw [h] at hlen
    simp at hlen
    omega
  have hrun := CircuitBreaker.runFailures_closed ts (CircuitBreaker.init thr rto)
    (by simp [CircuitBreaker.init]) (by simp [CircuitBreaker.init, hlen])
  have hfin : ((CircuitBreaker.init thr rto).runFailures ts).2 =
      { failure_count := thr
        failure_threshold := thr
        recovery_timeout := rto
        state := .open_
        last_failure_time := some (ts.getLastD 0) } := by
    rw [hrun.2]
    simp [CircuitBreaker.init, hlen, hne]
  refine ⟨by simp [CircuitBreaker.init], by simp [CircuitBreaker.init],
    hrun.1, by rw [hfin], by rw [hfin], by rw [hfin], ?_, ?_⟩
  · intro lt t ok tf hl ht
    rw [hfin] at hl ⊢
    simp only [Option.some_inj] at hl
    subst hl
    simp only [List.getLastD_eq_getLast?] at ht ⊢
    simp [CircuitBreaker.call, not_lt.mpr ht]
  · intro lt t tf hl ht
    rw [hfin] at hl ⊢
    simp only [Option.some_inj] at hl
    subst hl
    simp only [List.getLastD_eq_getLast?] at ht ⊢
    have hopen : thr ≤ thr + 1 := by omega
    refine ⟨?_, ?_, ?_, ?_, ?_⟩ <;>
      simp [CircuitBreaker.call, ht, hopen]

/-- Witness for C1: threshold 2, recovery timeout 5, failures at times 0
and 1; the theorem is applied at these concrete inputs. -/
theorem circuit_breaker_C1_witness :
    1 ≤ 2 ∧ ([0, 1] : List Int).length = 2 ∧
    ((CircuitBreaker.init 2 5).runFailures [0, 1]).2.state = .open_ ∧
    ((CircuitBreaker.init 2 5).runFailures [0, 1]).2.call 6 true 6 =
      (.circuitOpenError, false,
        ((CircuitBreaker.init 2 5).runFailures [0, 1]).2) ∧
    ((CircuitBreaker.init 2 5).runFailures [0, 1]).2.call 7 true 7 =
      (.success, true,
        { ((CircuitBreaker.init 2 5).runFailures [0, 1]).2 with
            failure_count := 0
            state := .closed }) := by
  have h := circuit_breaker_C1 2 5 [0, 1] (by decide) (by decide)
  refine ⟨by decide, by decide, h.2.2.2.1, ?_, ?_⟩
  · exact h.2.2.2.2.2.2.1 1 6 true 6 (by decide) (by decide)
  · exact (h.2.2.2.2.2.2.2 1 7 7 (by decide) (by decide)).1

/-! # Rate limiter (src/security/rate_limiter.py, class RateLimiter) -/

/-- Exact value of a Python float configuration parameter such as
`burst_multiplier = 1.5`, as the fraction `num / den` (floats are dyadic
rationals, so this loses nothing). -/
structure Frac where
  num : Int
  den : Nat
  deriving DecidableEq, Repr

/-- `RateLimitConfig` (`src/security/rate_limiter.py:33-53`). -/
structure RateLimitConfig where
  enabled : Bool
  requests_per_minute : Nat
  requests_per_hour : Nat
  tokens_per_minute : Nat
  max_concurrent_requests : Nat
  per_user : Bool
  burst_multiplier : Frac
  deriving DecidableEq, Repr

/-- `int(limit * multiplier)`: the Python product is exact here, and
`int()` truncates toward zero, which is `Int.tdiv`. -/
def burstCeiling (limit : Nat) (m : Frac) : Int :=
  Int.tdiv (limit * m.num) m.den

/-- `RateLimitState` (`src/security/rate_limiter.py:56-62`), minus the
unused `concurrent` field (concurrency lives in its own counter map). -/
structure RateLimitState where
  count : Nat
  tokens : Nat
  window_start : Int
  deriving DecidableEq, Repr

/-- The `limit_type` values carried by `RateLimitExceeded`. -/
inductive LimitKind where
  | concurrent
  | requestsPerMinute
  | requestsPerHour
  | tokensPerMinute
  deriving DecidableEq, Repr

/-- The window-expiry reset inside `_check_request_limit`:
`if now - window_start >= length: count = 0; window_start = now`.
Note that the token total is *not* reset here, exactly as in the source. -/
def resetIfExpired (winLen now : Int) (st : RateLimitState) : RateLimitState :=
  if now - st.window_start ≥ winLen then
    { st with count := 0, window_start := now }
  else
    st

/-- `RateLimiter._check_concurrent_limit` (`rate_limiter.py:148-163`):
`current` is the relevant counter (per-identity or global). -/
def checkConcurrentLimit (cfg : RateLimitConfig) (current : Nat) :
    Except LimitKind Unit :=
  if cfg.max_concurrent_requests ≤ current then .error .concurrent
  else .ok ()

/-- `RateLimiter._check_request_limit` (`rate_limiter.py:165-208`) for one
identity's minute and hour windows; returns the (possibly reset) windows. -/
def checkRequestLimit (cfg : RateLimitConfig) (stMin stHour : RateLimitState)
    (now : Int) : Except LimitKind (RateLimitState × RateLimitState) :=
  let stMin' := resetIfExpired 60 now stMin
  let maxRequests := burstCeiling cfg.requests_per_minute cfg.burst_multiplier
  if maxRequests ≤ (stMin'.count : Int) then .error .requestsPerMinute
  else
    let stHour' := resetIfExpired 3600 now stHour
    if cfg.requests_per_hour ≤ stHour'.count then .error .requestsPerHour
    else .ok (stMin', stHour')

/-- `RateLimiter._check_token_limit` (`rate_limiter.py:210-233`). -/
def checkTokenLimit (cfg : RateLimitConfig) (stMin : RateLimitState)
    (tokens : Nat) : Except LimitKind Unit :=
  let maxTokens := burstCeiling cfg.tokens_per_minute cfg.burst_multiplier
  if maxTokens < ((stMin.tokens + tokens : Nat) : Int) then
    .error .tokensPerMinute
  else .ok ()

/-- `RateLimiter.check_limit` (`rate_limiter.py:108-146`) for one identity:
concurrent check, then request limits, then (only when `estimated_tokens >
0`) the token limit.  `_cleanup_windows` only deletes windows older than
twice their length (a deleted window reappears as a fresh default on next
access) and zero concurrency counters; since this theorem's statements
quantify over all window states, that garbage collection is not modelled
separately. -/
def checkLimit (cfg : RateLimitConfig) (conc : Nat)
    (stMin stHour : RateLimitState) (now : Int) (estimatedTokens : Nat) :
    Except LimitKind (RateLimitState × RateLimitState) :=
  if cfg.enabled then
    match checkConcurrentLimit cfg conc with
    | .error k => .error k
    | .ok _ =>
        match checkRequestLimit cfg stMin stHour now with
        | .error k => .error k
        | .ok (m, h) =>
            if 0 < estimatedTokens then
              match checkTokenLimit cfg m estimatedTokens with
              | .error k => .error k
              | .ok _ => .ok (m, h)
            else .ok (m, h)
  else .ok (stMin, stHour)

/-- `RateLimiter.record_request` (`rate_limiter.py:235-269`): increments
both windows; no limit is consulted. -/
def recordRequest (cfg : RateLimitConfig) (stMin stHour : RateLimitState)
    (tokens_used : Nat) : RateLimitState × RateLimitState :=
  if cfg.enabled then
    ({ stMin with count := stMin.count + 1, tokens := stMin.tokens + tokens_used },
     { stHour with count := stHour.count + 1, tokens := stHour.tokens + tokens_used })
  else (stMin, stHour)

/-- One line of `RateLimiter.get_usage` (`rate_limiter.py:321-348`):
`remaining = max(0, limit - used)` against the *nominal* limit. -/
structure UsageLine where
  used : Nat
  limit : Nat
  remaining : Nat
  deriving DecidableEq, Repr

/-- `RateLimiter.get_usage`: the three reported windows (requests/minute,
requests/hour, tokens/minute), all against nominal limits. -/
def getUsage (cfg : RateLimitConfig) (stMin stHour : RateLimitState) :
    UsageLine × UsageLine × UsageLine :=
  (⟨stMin.count, cfg.requests_per_minute,
      cfg.requests_per_minute - stMin.count⟩,
   ⟨stHour.count, cfg.requests_per_hour,
      cfg.requests_per_hour - stHour.count⟩,
   ⟨stMin.tokens, cfg.tokens_per_minute,
      cfg.tokens_per_minute - stMin.tokens⟩)

/-- Counterexample to claim C2 as stated: with `requests_per_hour = 2` and
`burst_multiplier = 1.5`, an hour window whose count is 2 is rejected by
`check_limit` even though the count has not reached
`requests_per_hour × burst_multiplier = 3`: the hourly check uses the
nominal limit, not the burst ceiling. -/
theorem rate_limiter_C2_counterexample :
    checkLimit
        { enabled := true, requests_per_minute := 100, requests_per_hour := 2,
          tokens_per_minute := 1000, max_concurrent_requests := 10,
          per_user := true, burst_multiplier := ⟨3, 2⟩ }
        0 ⟨0, 0, 0⟩ ⟨2, 0, 0⟩ 10 0 = .error .requestsPerHour ∧
    ((2 : Nat) : Int) <
      burstCeiling 2 (⟨3, 2⟩ : Frac) := by
  constructor
  · rfl
  · decide

/-- Claim C2, amended: for an enabled limiter with a free concurrency slot,
`check_limit` rejects per-minute exactly when the (reset-adjusted) minute
count has reached `⌊requests_per_minute × burst_multiplier⌋`; it rejects
per-hour exactly when the minute check passed and the (reset-adjusted) hour
count has reached the *nominal* `requests_per_hour` (no burst allowance);
it rejects on tokens exactly when both request checks passed,
`estimated_tokens > 0`, and the minute window's token total plus the
estimate strictly exceeds `⌊tokens_per_minute × burst_multiplier⌋`; and
usage reporting is against the nominal limits. -/
theorem rate_limiter_C2_amended (cfg : RateLimitConfig) (conc : Nat)
    (stMin stHour : RateLimitState) (now : Int) (est : Nat)
    (henabled : cfg.enabled = true)
    (hconc : conc < cfg.max_concurrent_requests) :
    (checkLimit cfg conc stMin stHour now est = .error .requestsPerMinute ↔
      burstCeiling cfg.requests_per_minute cfg.burst_multiplier ≤
        ((resetIfExpired 60 now stMin).count : Int)) ∧
    (checkLimit cfg conc stMin stHour now est = .error .requestsPerHour ↔
      (((resetIfExpired 60 now stMin).count : Int) <
          burstCeiling cfg.requests_per_minute cfg.burst_multiplier ∧
        cfg.requests_per_hour ≤ (resetIfExpired 3600 now stHour).count)) ∧
    (checkLimit cfg conc stMin stHour now est = .error .tokensPerMinute ↔
      (((resetIfExpired 60 now stMin).count : Int) <
          burstCeiling cfg.requests_per_minute cfg.burst_multiplier ∧
        (resetIfExpired 3600 now stHour).count < cfg.requests_per_hour ∧
        0 < est ∧
        burstCeiling cfg.tokens_per_minute cfg.burst_multiplier <
          ((resetIfExpired 60 now stMin).tokens : Int) + (est : Int))) ∧
    (getUsage cfg stMin stHour).1.limit = cfg.requests_per_minute ∧
    (getUsage cfg stMin stHour).2.1.limit = cfg.requests_per_hour ∧
    (getUsage cfg stMin stHour).2.2.limit = cfg.tokens_per_minute := by
  have hconc' : ¬ (cfg.max_concurrent_requests ≤ conc) := Nat.not_le.mpr hconc
  by_cases c1 : burstCeiling cfg.requests_per_minute cfg.burst_multiplier ≤
      ((resetIfExpired 60 now stMin).count : Int)
  · refine ⟨?_, ?_, ?_, rfl, rfl, rfl⟩ <;>
      simp [checkLimit, checkConcurrentLimit, checkRequestLimit, henabled,
        hconc', c1] <;> omega
  · by_cases c2 : cfg.requests_per_hour ≤ (resetIfExpired 3600 now stHour).count
    · refine ⟨?_, ?_, ?_, rfl, rfl, rfl⟩ <;>
        simp [checkLimit, checkConcurrentLimit, checkRequestLimit, henabled,
          hconc', c1, c2] <;> omega
    · by_cases c3 : 0 < est
      · by_cases c4 : burstCeiling cfg.tokens_per_minute cfg.burst_multiplier <
            ((resetIfExpired 60 now stMin).tokens : Int) + (est : Int)
        · refine ⟨?_, ?_, ?_, rfl, rfl, rfl⟩ <;>
            simp [checkLimit, checkConcurrentLimit, checkRequestLimit,
              checkTokenLimit, henabled, hconc', c1, c2, c3, c4] <;> omega
        · refine ⟨?_, ?_, ?_, rfl, rfl, rfl⟩ <;>
            simp [checkLimit, checkConcurrentLimit, checkRequestLimit,
              checkTokenLimit, henabled, hconc', c1, c2, c3, c4] <;> omega
      · refine ⟨?_, ?_, ?_, rfl, rfl, rfl⟩ <;>
          simp [checkLimit, checkConcurrentLimit, checkRequestLimit,
            checkTokenLimit, henabled, hconc', c1, c2, c3] <;> omega

/-- Witness for the amended C2 at concrete inputs (enabled limiter, free
concurrency slot, minute count at its burst ceiling). -/
theorem rate_limiter_C2_amended_witness :
    ((true : Bool) = true ∧ (0 : Nat) < 10) ∧
    (checkLimit
        { enabled := true, requests_per_minute := 2, requests_per_hour := 100,
          tokens_per_minute := 1000, max_concurrent_requests := 10,
          per_user := true, burst_multiplier := ⟨3, 2⟩ }
        0 ⟨3, 0, 0⟩ ⟨0, 0, 0⟩ 10 0 = .error .requestsPerMinute ↔
      burstCeiling 2 (⟨3, 2⟩ : Frac) ≤
        ((resetIfExpired 60 10 ⟨3, 0, 0⟩).count : Int)) := by
  refine ⟨⟨rfl, by decide⟩, ?_⟩
  exact (rate_limiter_C2_amended
    { enabled := true, requests_per_minute := 2, requests_per_hour := 100,
      tokens_per_minute := 1000, max_concurrent_requests := 10,
      per_user := true, burst_multiplier := ⟨3, 2⟩ }
    0 ⟨3, 0, 0⟩ ⟨0, 0, 0⟩ 10 0 rfl (by decide)).1

/-- `user_id or "global"`. -/
def identifierOf (user_id : Option String) : String :=
  user_id.getD "global"

/-- The `_concurrent_requests` defaultdict (value 0 for unseen keys) and
`_global_concurrent`.  Counters are modelled as `Int` so that "never
negative" is a real statement about the update rules. -/
structure ConcurrencyState where
  perUser : String → Int
  globalCount : Int

/-- Fresh limiter: all counters zero. -/
def ConcurrencyState.init : ConcurrencyState :=
  { perUser := fun _ => 0, globalCount := 0 }

/-- `RateLimiter.acquire_concurrent_slot` (`rate_limiter.py:271-281`). -/
def acquireConcurrentSlot (cfg : RateLimitConfig) (st : ConcurrencyState)
    (user_id : Option String) : ConcurrencyState :=
  if cfg.enabled then
    if cfg.per_user then
      { st with
          perUser := fun s =>
            if s = identifierOf user_id then st.perUser s + 1
            else st.perUser s }
    else { st with globalCount := st.globalCount + 1 }
  else st

/-- `RateLimiter.release_concurrent_slot` (`rate_limiter.py:283-293`):
`max(0, current - 1)`. -/
def releaseConcurrentSlot (cfg : RateLimitConfig) (st : ConcurrencyState)
    (user_id : Option String) : ConcurrencyState :=
  if cfg.enabled then
    if cfg.per_user then
      { st with
          perUser := fun s =>
            if s = identifierOf user_id then max 0 (st.perUser s - 1)
            else st.perUser s }
    else { st with globalCount := max 0 (st.globalCount - 1) }
  else st

/-- An interleaving step on the concurrency counters. -/
inductive SlotOp where
  | acquire (user_id : Option String)
  | release (user_id : Option String)

/-- Apply a sequence of acquire/release calls. -/
def applySlotOps (cfg : RateLimitConfig) :
    List SlotOp → ConcurrencyState → ConcurrencyState
  | [], st => st
  | op :: rest, st =>
      applySlotOps cfg rest
        (match op with
          | .acquire u => acquireConcurrentSlot cfg st u
          | .release u => releaseConcurrentSlot cfg st u)

theorem applySlotOps_nonneg (cfg : RateLimitConfig) (ops : List SlotOp) :
    ∀ st : ConcurrencyState, (∀ s, 0 ≤ st.perUser s) → 0 ≤ st.globalCount →
    (∀ s, 0 ≤ (applySlotOps cfg ops st).perUser s) ∧
    0 ≤ (applySlotOps cfg ops st).globalCount := by
  induction ops with
  | nil => intro st h1 h2; exact ⟨h1, h2⟩
  | cons op rest ih =>
      intro st h1 h2
      cases op with
      | acquire u =>
          apply ih
          · intro s
            simp only [acquireConcurrentSlot]
            split
            · split
              · simp only
                split
                · have := h1 s; omega
                · exact h1 s
              · exact h1 s
            · exact h1 s
          · simp only [acquireConcurrentSlot]
            split
            · split
              · exact h2
              · simp only; omega
            · exact h2
      | release u =>
          apply ih
          · intro s
            simp only [releaseConcurrentSlot]
            split
            · split
              · simp only
                split
                · exact le_max_left 0 _
                · exact h1 s
              · exact h1 s
            · exact h1 s
          · simp only [releaseConcurrentSlot]
            split
            · split
              · exact h2
              · exact le_max_left 0 _
            · exact h2

/-- Claim C9: under every interleaving of `acquire_concurrent_slot` and
`release_concurrent_slot` calls starting from a fresh limiter, no
concurrency counter (per-identity or global) is ever negative, and a
release on an identity whose counter is zero leaves it at zero. -/
theorem rate_limiter_C9 (cfg : RateLimitConfig) (ops : List SlotOp)
    (s : String) :
    0 ≤ (applySlotOps cfg ops ConcurrencyState.init).perUser s ∧
    0 ≤ (applySlotOps cfg ops ConcurrencyState.init).globalCount ∧
    (∀ st : ConcurrencyState, ∀ u,
      st.perUser (identifierOf u) = 0 →
      (releaseConcurrentSlot cfg st u).perUser (identifierOf u) = 0) := by
  have h := applySlotOps_nonneg cfg ops ConcurrencyState.init
    (fun _ => le_refl 0) (le_refl 0)
  refine ⟨h.1 s, h.2, ?_⟩
  intro st u hz
  cases hen2 : cfg.enabled <;> cases hpu : cfg.per_user <;>
    simp [releaseConcurrentSlot, hen2, hpu, hz] <;> omega

/-- Witness for C9: acquire then two releases for user "u"; the counter is
0, never negative, and releasing at zero keeps it 0. -/
theorem rate_limiter_C9_witness :
    0 ≤ (applySlotOps
        { enabled := true, requests_per_minute := 60, requests_per_hour := 1000,
          tokens_per_minute := 100000, max_concurrent_requests := 10,
          per_user := true, burst_multiplier := ⟨3, 2⟩ }
        [.acquire (some "u"), .release (some "u"), .release (some "u")]
        ConcurrencyState.init).perUser "u" ∧
    (releaseConcurrentSlot
        { enabled := true, requests_per_minute := 60, requests_per_hour := 1000,
          tokens_per_minute := 100000, max_concurrent_requests := 10,
          per_user := true, burst_multiplier := ⟨3, 2⟩ }
        ConcurrencyState.init (some "u")).perUser "u" = 0 := by
  refine ⟨(rate_limiter_C9 _ _ _).1, ?_⟩
  exact (rate_limiter_C9
    { enabled := true, requests_per_minute := 60, requests_per_hour := 1000,
      tokens_per_minute := 100000, max_concurrent_requests := 10,
      per_user := true, burst_multiplier := ⟨3, 2⟩ } [] "u").2.2
    ConcurrencyState.init (some "u") rfl

/-! # Retry policy (src/mcp/d365_tool.py, D365MCPTool._execute_with_retry) -/

/-- What one attempt of `_execute_tool_call` does: returns normally, raises
`HTTPStatusError` with a status code, or raises a transient
connection/timeout/OS error. -/
inductive AttemptOutcome where
  | ok
  | http (status : Nat)
  | transient
  deriving DecidableEq, Repr

/-- The error that `_execute_with_retry` lets escape. -/
inductive RetryError where
  | httpError (status : Nat)
  | transientError
  | runtimeExhausted
  deriving DecidableEq, Repr

/-- The loop body of `_execute_with_retry` (`src/mcp/d365_tool.py:535-607`).
`behavior` gives the outcome of the attempt with each index, `remaining`
counts the loop iterations left (`max_retries + 1` at the top),
`refreshes` accumulates the number of `refresh_token()` calls, and
`sawTransient` records whether `last_error` has been set.  Sleeps
(429 backoff, exponential transient backoff) do not affect the control
flow and are not tracked. -/
def execRetryGo (behavior : Nat → AttemptOutcome) (maxRetries : Nat) :
    Nat → Nat → Nat → Bool → Except RetryError Unit × Nat
  | _, 0, refreshes, sawTransient =>
      -- after the loop: `raise last_error or RuntimeError(...)`
      (.error (if sawTransient then .transientError else .runtimeExhausted),
        refreshes)
  | attempt, remaining + 1, refreshes, sawTransient =>
      match behavior attempt with
      | .ok => (.ok (), refreshes)
      | .http status =>
          if status = 401 then
            if attempt < maxRetries then
              execRetryGo behavior maxRetries (attempt + 1) remaining
                (refreshes + 1) sawTransient
            else (.error (.httpError status), refreshes)
          else if status = 429 then
            if attempt < maxRetries then
              execRetryGo behavior maxRetries (attempt + 1) remaining
                refreshes sawTransient
            else (.error (.httpError status), refreshes)
          else (.error (.httpError status), refreshes)
      | .transient =>
          if attempt < maxRetries then
            execRetryGo behavior maxRetries (attempt + 1) remaining
              refreshes true
          else (.error .transientError, refreshes)

/-- `_execute_with_retry`: run the `for attempt in range(max_retries + 1)`
loop from the start; the second component is how many times
`refresh_token()` ran during this one request. -/
def executeWithRetry (behavior : Nat → AttemptOutcome) (maxRetries : Nat) :
    Except RetryError Unit × Nat :=
  execRetryGo behavior maxRetries 0 (maxRetries + 1) 0 false

/-- Counterexample to claim C3 as stated: with the default
`max_retries = 3` and a tool call that answers 401 on every attempt,
`_execute_with_retry` refreshes the token three times in this single
request — not at most once — before the final 401 propagates. -/
theorem retry_C3_counterexample :
    (executeWithRetry (fun _ => .http 401) 3).2 = 3 ∧
    ¬ ((executeWithRetry (fun _ => .http 401) 3).2 ≤ 1) ∧
    (executeWithRetry (fun _ => .http 401) 3).1 =
      .error (.httpError 401) := by
  refine ⟨rfl, by decide, rfl⟩

theorem execRetryGo_refresh_bound (behavior : Nat → AttemptOutcome)
    (maxRetries : Nat) :
    ∀ remaining attempt refreshes sawTransient,
    attempt + remaining = maxRetries + 1 →
    (execRetryGo behavior maxRetries attempt remaining refreshes
        sawTransient).2 ≤ refreshes + (remaining - 1) := by
  intro remaining
  induction remaining with
  | zero =>
      intro attempt refreshes sawTransient _
      simp [execRetryGo]
  | succ n ih =>
      intro attempt refreshes sawTransient hinv
      cases hb : behavior attempt with
      | ok => simp [execRetryGo, hb]
      | http status =>
          by_cases h401 : status = 401
          · by_cases hlt : attempt < maxRetries
            · have heq : (execRetryGo behavior maxRetries attempt (n + 1)
                  refreshes sawTransient).2 =
                  (execRetryGo behavior maxRetries (attempt + 1) n
                    (refreshes + 1) sawTransient).2 := by
                simp [execRetryGo, hb, h401, hlt]
              have hrec := ih (attempt + 1) (refreshes + 1) sawTransient
                (by omega)
              rw [heq]
              omega
            · have heq : (execRetryGo behavior maxRetries attempt (n + 1)
                  refreshes sawTransient).2 = refreshes := by
                simp [execRetryGo, hb, h401, hlt]
              rw [heq]
              omega
          · by_cases h429 : status = 429
            · by_cases hlt : attempt < maxRetries
              · have heq : (execRetryGo behavior maxRetries attempt (n + 1)
                    refreshes sawTransient).2 =
                    (execRetryGo behavior maxRetries (attempt + 1) n
                      refreshes sawTransient).2 := by
                  simp [execRetryGo, hb, h401, h429, hlt]
                have hrec := ih (attempt + 1) refreshes sawTransient (by omega)
                rw [heq]
                omega
              · have heq : (execRetryGo behavior maxRetries attempt (n + 1)
                    refreshes sawTransient).2 = refreshes := by
                  simp [execRetryGo, hb, h401, h429, hlt]
                rw [heq]
                omega
            · have heq : (execRetryGo behavior maxRetries attempt (n + 1)
                  refreshes sawTransient).2 = refreshes := by
                simp [execRetryGo, hb, h401, h429]
              rw [heq]
              omega
      | transient =>
          by_cases hlt : attempt < maxRetries
          · have heq : (execRetryGo behavior maxRetries attempt (n + 1)
                refreshes sawTransient).2 =
                (execRetryGo behavior maxRetries (attempt + 1) n
                  refreshes true).2 := by
              simp [execRetryGo, hb, hlt]
            have hrec := ih (attempt + 1) refreshes true (by omega)
            rw [heq]
            omega
          · have heq : (execRetryGo behavior maxRetries attempt (n + 1)
                refreshes sawTransient).2 = refreshes := by
              simp [execRetryGo, hb, hlt]
            rw [heq]
            omega

theorem execRetryGo_all401 (behavior : Nat → AttemptOutcome)
    (maxRetries : Nat) (hb : ∀ i, behavior i = .http 401) :
    ∀ remaining attempt refreshes sawTransient, 1 ≤ remaining →
    attempt + remaining = maxRetries + 1 →
    execRetryGo behavior maxRetries attempt remaining refreshes sawTransient =
      (.error (.httpError 401), refreshes + (remaining - 1)) := by
  intro remaining
  induction remaining with
  | zero => intro _ _ _ h; omega
  | succ n ih =>
      intro attempt refreshes sawTransient _ hinv
      cases n with
      | zero =>
          have hattempt : attempt = maxRetries := by omega
          have hnlt : ¬ (attempt < maxRetries) := by omega
          simp [execRetryGo, hb attempt, hnlt]
      | succ m =>
          have hlt : attempt < maxRetries := by omega
          have hrec := ih (attempt + 1) (refreshes + 1) sawTransient
            (by omega) (by omega)
          have heq : execRetryGo behavior maxRetries attempt (m + 1 + 1)
              refreshes sawTransient =
              execRetryGo behavior maxRetries (attempt + 1) (m + 1)
                (refreshes + 1) sawTransient := by
            simp [execRetryGo, hb attempt, hlt]
          rw [heq, hrec]
          have : refreshes + 1 + (m + 1 - 1) = refreshes + (m + 1 + 1 - 1) := by
            omega
          rw [this]

/-- Claim C3, amended: within a single `call_tool` request, a 401 triggers
a token refresh-and-retry on every attempt that still has retries left, so
at most `max_retries` refreshes are performed per request (three with the
default configuration), and when every attempt keeps answering 401 exactly
`max_retries` refreshes happen and the final 401 propagates to the
caller. -/
theorem retry_C3_amended (behavior : Nat → AttemptOutcome) (maxRetries : Nat)
    (h401 : ∀ i, behavior i = .http 401) :
    (executeWithRetry behavior maxRetries).2 ≤ maxRetries ∧
    executeWithRetry behavior maxRetries =
      (.error (.httpError 401), maxRetries) := by
  constructor
  · have := execRetryGo_refresh_bound behavior maxRetries (maxRetries + 1)
      0 0 false (by omega)
    simpa [executeWithRetry] using this
  · have := execRetryGo_all401 behavior maxRetries h401 (maxRetries + 1)
      0 0 false (by omega) (by omega)
    simpa [executeWithRetry] using this

/-- Witness for the amended C3: all attempts answer 401, `max_retries = 2`:
two refreshes, then the 401 escapes. -/
theorem retry_C3_amended_witness :
    (∀ i : Nat, (fun _ : Nat => AttemptOutcome.http 401) i = .http 401) ∧
    executeWithRetry (fun _ => .http 401) 2 =
      (.error (.httpError 401), 2) := by
  refine ⟨fun _ => rfl, ?_⟩
  exact (retry_C3_amended (fun _ => .http 401) 2 (fun _ => rfl)).2

/-! # Input validator (src/security/input_validator.py, InputValidator) -/

/-- The configuration fields of `ValidationConfig` that `validate`
consults (`src/security/input_validator.py:34-51`). -/
structure ValidationConfigM where
  max_question_length : Nat
  max_tool_param_length : Nat
  block_prompt_injection : Bool
  block_pii : Bool
  redact_pii : Bool
  deriving DecidableEq, Repr

/-- The `validation_type` tag of a raised `ValidationError`. -/
structure VError where
  validation_type : String
  deriving DecidableEq, Repr

/-- `InputValidator.validate` (`src/security/input_validator.py:164-232`).
The compiled regex batteries are external library machinery; they enter the
model as opaque functions: `detectInjection` is
`_detect_prompt_injection` (`some matched-span` on a hit), `blockedHit`
says whether any custom blocked pattern matches, `detectPII` is
`_detect_pii` (the list of PII kinds found), `redactPII` is `_redact_pii`.
The length check itself — the subject of claim C10 — is fully concrete:
`len(text) > max_length` with the cap selected by `context`. -/
def validate (cfg : ValidationConfigM)
    (detectInjection : String → Option String)
    (blockedHit : String → Bool)
    (detectPII : String → List String)
    (redactPII : String → String)
    (text : String) (context : String) : Except VError String :=
  let max_length :=
    if context = "question" then cfg.max_question_length
    else cfg.max_tool_param_length
  if max_length < text.length then .error ⟨"length"⟩
  else if cfg.block_prompt_injection ∧ (detectInjection text).isSome then
    .error ⟨"prompt_injection"⟩
  else if blockedHit text then .error ⟨"blocked_content"⟩
  else if cfg.block_pii ∧ detectPII text ≠ [] then .error ⟨"pii"⟩
  else .ok (if cfg.redact_pii then redactPII text else text)

/-- Claim C10: `validate` raises the length failure exactly when the text
is strictly longer than the context's cap (`max_question_length` for
context "question", `max_tool_param_length` otherwise); in particular a
text of exactly the cap's length never produces the length failure,
whatever the injection / blocked-pattern / PII configuration does. -/
theorem input_validator_C10 (cfg : ValidationConfigM)
    (detectInjection : String → Option String) (blockedHit : String → Bool)
    (detectPII : String → List String) (redactPII : String → String)
    (text : String) (context : String) :
    ((∃ e, validate cfg detectInjection blockedHit detectPII redactPII
        text context = .error e ∧ e.validation_type = "length") ↔
      (if context = "question" then cfg.max_question_length
        else cfg.max_tool_param_length) < text.length) := by
  constructor
  · rintro ⟨e, he, htype⟩
    by_contra hlen
    simp only [validate, if_neg hlen] at he
    split at he
    · exact absurd (congrArg VError.validation_type
        (Except.error.inj he)).symm (by simp [htype])
    · split at he
      · exact absurd (congrArg VError.validation_type
          (Except.error.inj he)).symm (by simp [htype])
      · split at he
        · exact absurd (congrArg VError.validation_type
            (Except.error.inj he)).symm (by simp [htype])
        · exact Except.noConfusion he
  · intro hlen
    refine ⟨⟨"length"⟩, ?_, rfl⟩
    simp [validate, hlen]

/-- Witness for C10: a 5-character tool parameter against a cap of 4 is
rejected as over-length; the theorem is applied at these inputs. -/
theorem input_validator_C10_witness :
    (∃ e, validate ⟨100, 4, true, false, false⟩ (fun _ => none)
        (fun _ => false) (fun _ => []) id "abcde" "tool_param" =
        .error e ∧ e.validation_type = "length") ∧
    ¬ (∃ e, validate ⟨100, 4, true, false, false⟩ (fun _ => none)
        (fun _ => false) (fun _ => []) id "abcd" "tool_param" =
        .error e ∧ e.validation_type = "length") := by
  constructor
  · exact (input_validator_C10 ⟨100, 4, true, false, false⟩ (fun _ => none)
      (fun _ => false) (fun _ => []) id "abcde" "tool_param").mpr (by decide)
  · intro hcontra
    have := (input_validator_C10 ⟨100, 4, true, false, false⟩ (fun _ => none)
      (fun _ => false) (fun _ => []) id "abcd" "tool_param").mp hcontra
    revert this
    decide

/-! # Python values

A single value type for everything the condition evaluator and the
chat-history manager pass around: JSON-ish data made of strings, ints,
floats, bools, `None`, lists, and string-keyed dicts (all dicts in play
come from JSON/TOML, so string keys are exact).  A Python float literal is
carried as the exact fraction `num / den` that its decimal source text
denotes. -/

inductive PyVal where
  | str (s : String)
  | int (n : Int)
  | float (num : Int) (den : Nat)
  | bool (b : Bool)
  | none_
  | list (l : List PyVal)
  | dict (m : List (String × PyVal))
  deriving Repr

/-- Python errors the evaluator model can raise. -/
inductive PyErr where
  | typeError
  | attributeError
  | recursionDepth
  deriving DecidableEq, Repr

/-- Numeric view: Python treats `bool` as an `int`, and compares `int` and
`float` exactly.  Returns `(num, den)`. -/
def PyVal.toNum : PyVal → Option (Int × Nat)
  | .int n => some (n, 1)
  | .float n d => some (n, d)
  | .bool b => some (if b then 1 else 0, 1)
  | _ => none

/-- Association-list lookup modelling `dict.get` for string-keyed dicts
(first occurrence wins; the dicts in play have unique keys). -/
def lookupS : List (String × PyVal) → String → Option PyVal
  | [], _ => none
  | p :: t, k => if p.1 = k then some p.2 else lookupS t k

/-- Python `==` between two values, with `fuel` bounding nesting depth
(Python's recursion limit): numbers (incl. bools) compare by value across
types, strings/None structurally, lists pointwise, dicts key-wise
regardless of order; values of different kinds are unequal, never an
error. -/
def pyEq : Nat → PyVal → PyVal → Bool
  | 0, _, _ => false
  | fuel + 1, a, b =>
      match a.toNum, b.toNum with
      | some (n1, d1), some (n2, d2) => n1 * d2 = n2 * d1
      | _, _ =>
          match a, b with
          | .str x, .str y => x = y
          | .none_, .none_ => true
          | .list x, .list y =>
              x.length = y.length &&
                (x.zip y).all (fun p => pyEq fuel p.1 p.2)
          | .dict x, .dict y =>
              x.length = y.length &&
                x.all (fun p =>
                  match lookupS y p.1 with
                  | some w => pyEq fuel p.2 w
                  | none => false)
          | _, _ => false

/-- Python's three-way comparison for `<`/`>`/`<=`/`>=`: numbers and bools
by value, strings lexicographically, lists lexicographically; any other
pairing raises `TypeError`. -/
def pyCmp : Nat → PyVal → PyVal → Except PyErr Ordering
  | 0, _, _ => .error .recursionDepth
  | fuel + 1, a, b =>
      match a.toNum, b.toNum with
      | some (n1, d1), some (n2, d2) =>
          .ok (if n1 * d2 < n2 * d1 then .lt
            else if n2 * d1 < n1 * d2 then .gt else .eq)
      | _, _ =>
          match a, b with
          | .str x, .str y =>
              .ok (if x < y then .lt else if y < x then .gt else .eq)
          | .list [], .list [] => .ok .eq
          | .list [], .list (_ :: _) => .ok .lt
          | .list (_ :: _), .list [] => .ok .gt
          | .list (x :: xs), .list (y :: ys) =>
              if pyEq fuel x y then pyCmp fuel (.list xs) (.list ys)
              else pyCmp fuel x y
          | _, _ => .error .typeError

/-- Lowercase an ASCII letter (`str.lower()` restricted to ASCII, which is
all the workflow conditions use). -/
def lcChar (c : Char) : Char :=
  if 'A' ≤ c ∧ c ≤ 'Z' then Char.ofNat (c.toNat + 32) else c

/-- Lowercase a string character-wise. -/
def lcStr (s : String) : String :=
  String.mk (s.data.map lcChar)

/-- Does `hay` start with `needle`? -/
def listStartsWith : List Char → List Char → Bool
  | _, [] => true
  | [], _ :: _ => false
  | h :: t, h2 :: t2 => h = h2 && listStartsWith t t2

/-- Substring containment on character lists (Python `needle in hay`). -/
def listContainsSub : List Char → List Char → Bool
  | [], needle => needle.isEmpty
  | h :: t, needle => listStartsWith (h :: t) needle || listContainsSub t needle

/-- Python `needle in hay` on strings. -/
def strContainsSub (hay needle : String) : Bool :=
  listContainsSub hay.data needle.data

/-- The apostrophe, `{` and `}` characters (used when rendering Python
`repr` text). -/
def squoteChar : Char := Char.ofNat 39

def lbraceChar : Char := Char.ofNat 123

def rbraceChar : Char := Char.ofNat 125

/-- Join strings with a separator. -/
def joinSep (sep : String) : List String → String
  | [] => ""
  | [x] => x
  | x :: y :: rest => x ++ sep ++ joinSep sep (y :: rest)

/-- Python `repr` of a value, approximately: exact for strings, ints,
bools, `None` and nesting structure; floats are rendered as `num/den`.
Only the case-insensitive substring fallback of the condition evaluator
ever looks at this text. -/
def pyRepr : Nat → PyVal → String
  | 0, _ => ""
  | fuel + 1, v =>
      match v with
      | .str s => String.mk (squoteChar :: s.data ++ [squoteChar])
      | .int n => toString n
      | .float n d => toString n ++ "/" ++ toString d
      | .bool b => if b then "True" else "False"
      | .none_ => "None"
      | .list l => "[" ++ joinSep ", " (l.map (pyRepr fuel)) ++ "]"
      | .dict m =>
          String.mk [lbraceChar] ++
            joinSep ", " (m.map (fun p =>
              String.mk (squoteChar :: p.1.data ++ [squoteChar]) ++ ": " ++
                pyRepr fuel p.2)) ++
            String.mk [rbraceChar]

/-- Python `str()` of a value: the string itself for strings, else its
`repr`. -/
def pyStr (fuel : Nat) : PyVal → String
  | .str s => s
  | v => pyRepr fuel v

/-- Python `a in b`: substring test when `b` is a string (`a` must then be
a string too, else `TypeError`), membership by `==` for lists, key
membership for dicts (unhashable `a` raises), `TypeError` for any other
container. -/
def pyIn (fuel : Nat) (a b : PyVal) : Except PyErr Bool :=
  match b with
  | .str s =>
      match a with
      | .str t => .ok (strContainsSub s t)
      | _ => .error .typeError
  | .list l => .ok (l.any (fun x => pyEq fuel a x))
  | .dict m =>
      match a with
      | .list _ => .error .typeError
      | .dict _ => .error .typeError
      | _ => .ok (m.any (fun p => pyEq fuel a (.str p.1)))
  | _ => .error .typeError

/-! # Condition evaluator (src/loaders/workflows.py, ConditionEvaluator)

The external `json.loads` enters the model as an opaque parameter
`jl : String → Option PyVal` (`none` models a raised
`JSONDecodeError`/`TypeError`).  `CONDITION_PATTERN` is re-implemented as a
deterministic parser following the regex's two alternatives; exotic
backtracking corners of the regex (a path swallowing a zero-space `in`, an
all-whitespace right-hand side) fall back to the substring branch here,
which is the same total behaviour the claims are about. -/

/-- `\w`: ASCII word character. -/
def isWordChar (c : Char) : Bool :=
  c = '_' || c.isAlpha || c.isDigit

/-- `str.strip()` on a character list. -/
def trimChars (cs : List Char) : List Char :=
  ((cs.dropWhile Char.isWhitespace).reverse.dropWhile Char.isWhitespace).reverse

/-- `str.strip()`. -/
def strTrim (s : String) : String :=
  String.mk (trimChars s.data)

/-- Case-insensitive `listStartsWith`. -/
def listStartsWithCI : List Char → List Char → Bool
  | _, [] => true
  | [], _ :: _ => false
  | h :: t, h2 :: t2 => lcChar h = lcChar h2 && listStartsWithCI t t2

/-- Split a character list on a separator character. -/
def splitOnChar (sep : Char) : List Char → List (List Char)
  | [] => [[]]
  | c :: rest =>
      if c = sep then [] :: splitOnChar sep rest
      else
        match splitOnChar sep rest with
        | [] => [[c]]
        | p :: ps => (c :: p) :: ps

/-- Does `cs` have the shape `\w+(\.\w+)*`? -/
def validWordPath (cs : List Char) : Bool :=
  (splitOnChar '.' cs).all (fun p => !p.isEmpty && p.all isWordChar)
    && !cs.isEmpty

/-- A parsed `CONDITION_PATTERN` match: `output.path op value` (pattern 1)
or `value in/not-in output.path` (pattern 2). -/
inductive ParsedCond where
  | fieldOpValue (path : List String) (op : String) (valueStr : String)
  | valueInField (valueStr : String) (op : String) (path : List String)
  deriving Repr

/-- The operator alternation `(==|!=|>=?|<=?|in|not in|contains)` in its
regex order (`>=` before `>`, `<=` before `<`, `in` before `not in`); the
returned token is already the lowercase form that `OPERATORS` is keyed
by. -/
def opTokens : List String :=
  ["==", "!=", ">=", ">", "<=", "<", "in", "not in", "contains"]

/-- Match one of the operator tokens (case-insensitively) at the head of
`cs`; returns the token and the remainder. -/
def matchOpAt (cs : List Char) : Option (String × List Char) :=
  (opTokens.find? (fun tok => listStartsWithCI cs tok.data)).map
    (fun tok => (tok, cs.drop tok.data.length))

/-- Pattern 1: `^output\.(\w+(\.\w+)*)\s*(op)\s*(.+)$` (case-insensitive);
the captured value is then `strip()`ed by the caller, which is folded in
here. -/
def parseAlt1 (cs : List Char) : Option ParsedCond :=
  if listStartsWithCI cs "output.".data then
    let rest := cs.drop 7
    let run := rest.takeWhile (fun c => isWordChar c || c = '.')
    if validWordPath run then
      let afterWs := (rest.drop run.length).dropWhile Char.isWhitespace
      match matchOpAt afterWs with
      | some (op, rest2) =>
          let valueChars := rest2.dropWhile Char.isWhitespace
          if !valueChars.isEmpty && valueChars.all (fun c => c ≠ '\n') then
            some (.fieldOpValue ((splitOnChar '.' run).map String.mk) op
              (String.mk (trimChars valueChars)))
          else none
      | none => none
    else none
  else none

/-- The tail of a pattern-2 match: `\s+(in|not in)\s+output\.path$`. -/
def alt2Tail (cs : List Char) : Option (String × List String) :=
  let ws1 := cs.takeWhile Char.isWhitespace
  if ws1.isEmpty then none
  else
    let r1 := cs.drop ws1.length
    match matchOpAt r1 with
    | some (op, r2) =>
        if op = "in" ∨ op = "not in" then
          let ws2 := r2.takeWhile Char.isWhitespace
          if ws2.isEmpty then none
          else
            let r3 := r2.drop ws2.length
            if listStartsWithCI r3 "output.".data then
              let run := r3.drop 7
              if validWordPath run then
                some (op, (splitOnChar '.' run).map String.mk)
              else none
            else none
        else none
    | none => none

/-- Pattern 2 scan: `(.+?)` is lazy, so split points are tried left to
right; the prefix may not contain a newline. -/
def parseAlt2Go (pre : List Char) : List Char → Option ParsedCond
  | [] => none
  | c :: rest =>
      match
        (if !pre.isEmpty && pre.all (fun ch => ch ≠ '\n') then
          alt2Tail (c :: rest)
        else none) with
      | some (op, path) =>
          some (.valueInField (String.mk (trimChars pre)) op path)
      | none => parseAlt2Go (pre ++ [c]) rest

/-- `CONDITION_PATTERN.match(condition)`. -/
def parseCondition (cond : String) : Option ParsedCond :=
  match parseAlt1 cond.data with
  | some p => some p
  | none => parseAlt2Go [] cond.data

/-- `_get_field_value` (`workflows.py:173-188`): walk the dot path,
`dict.get` returning `None` for a missing key, bail out with `None` on a
non-dict. -/
def getFieldValue : PyVal → List String → PyVal
  | v, [] => v
  | .dict m, p :: rest =>
      getFieldValue (match lookupS m p with | some w => w | none => .none_) rest
  | _, _ :: _ => .none_

/-- Digits to a natural number. -/
def digitsToNat (cs : List Char) : Nat :=
  cs.foldl (fun a c => a * 10 + (c.toNat - 48)) 0

/-- `int(s)` / `float(s)` on the plain decimal forms the conditions use
(optional sign, digits, optionally one decimal point); anything fancier
(exponents, underscores, surrounding whitespace) is treated as a
`ValueError`, i.e. `none`. -/
def parseNumChars (cs : List Char) : Option PyVal :=
  let signed : Int × List Char :=
    match cs with
    | '-' :: r => (-1, r)
    | '+' :: r => (1, r)
    | r => (1, r)
  let sgn := signed.1
  let ds := signed.2
  if cs.contains '.' then
    match splitOnChar '.' ds with
    | [ip, fp] =>
        if (!ip.isEmpty || !fp.isEmpty) && ip.all Char.isDigit &&
            fp.all Char.isDigit then
          some (.float (sgn * (digitsToNat (ip ++ fp) : Int)) (10 ^ fp.length))
        else none
    | _ => none
  else
    if !ds.isEmpty && ds.all Char.isDigit then
      some (.int (sgn * (digitsToNat ds : Int)))
    else none

/-- `_parse_value` (`workflows.py:190-227`): quoted string literal, list
literal via `json.loads` after replacing single with double quotes,
booleans, `None`/`null`, numbers, else the raw string. -/
def parseValue (jl : String → Option PyVal) (s : String) : PyVal :=
  let cs := trimChars s.data
  let quoted : Char → Bool := fun q =>
    match cs with
    | [] => false
    | h :: _ => h = q && cs.getLast? = some q
  if quoted squoteChar || quoted '"' then
    .str (String.mk (cs.drop 1).dropLast)
  else if (match cs with
      | [] => false
      | h :: _ => h = '[' && cs.getLast? = some ']') then
    match jl (String.mk (cs.map (fun c => if c = squoteChar then '"' else c))) with
    | some v => v
    | none => .str (String.mk cs)
  else if lcStr (String.mk cs) = "true" then .bool true
  else if lcStr (String.mk cs) = "false" then .bool false
  else if lcStr (String.mk cs) = "none" ∨ lcStr (String.mk cs) = "null" then
    .none_
  else
    match parseNumChars cs with
    | some v => v
    | none => .str (String.mk cs)

/-- Apply one entry of `OPERATORS` (`workflows.py:57-67`). -/
def opApply (fuel : Nat) (op : String) (a b : PyVal) : Except PyErr Bool :=
  if op = "==" then .ok (pyEq fuel a b)
  else if op = "!=" then .ok (!pyEq fuel a b)
  else if op = ">" then (pyCmp fuel a b).map (fun o => o == Ordering.gt)
  else if op = ">=" then (pyCmp fuel a b).map (fun o => !(o == Ordering.lt))
  else if op = "<" then (pyCmp fuel a b).map (fun o => o == Ordering.lt)
  else if op = "<=" then (pyCmp fuel a b).map (fun o => !(o == Ordering.gt))
  else if op = "in" then pyIn fuel a b
  else if op = "not in" then (pyIn fuel a b).map (fun x => !x)
  else if op = "contains" then pyIn fuel b a
  else .error .typeError

/-- The non-compound part of `_evaluate_condition` (`workflows.py:137-171`):
parse, apply the operator (pattern 2 swaps the argument order), or fall
back to the case-insensitive substring check against
`str(output.get('text', output.get('raw', str(output))))` — which raises
`AttributeError` when the (coerced) output is not a dict. -/
def evalPrimitive (jl : String → Option PyVal) (fuel : Nat) (cond : String)
    (output : PyVal) : Except PyErr Bool :=
  match parseCondition cond with
  | some (.fieldOpValue path op valueStr) =>
      opApply fuel op (getFieldValue output path) (parseValue jl valueStr)
  | some (.valueInField valueStr op path) =>
      opApply fuel op (parseValue jl valueStr) (getFieldValue output path)
  | none =>
      match output with
      | .dict m =>
          let ov :=
            match lookupS m "text" with
            | some v => v
            | none =>
                match lookupS m "raw" with
                | some v => v
                | none => .str (pyStr fuel output)
          .ok (strContainsSub (lcStr (pyStr fuel ov)) (lcStr cond))
      | _ => .error .attributeError

/-- Try to match `\s+word\s+` (greedy whitespace, case-insensitive word) at
the head of `cs`; on success return the remainder after the match. -/
def trySepMatch (word : List Char) (cs : List Char) : Option (List Char) :=
  let ws1 := cs.takeWhile Char.isWhitespace
  if ws1.isEmpty then none
  else
    let r1 := cs.drop ws1.length
    if listStartsWithCI r1 word then
      let r2 := r1.drop word.length
      let ws2 := r2.takeWhile Char.isWhitespace
      if ws2.isEmpty then none else some (r2.drop ws2.length)
    else none

/-- `re.split(r'\s+word\s+', s, flags=re.IGNORECASE)`: scan left to right,
splitting at every separator match.  `acc` is the current segment,
reversed; `fuel` starts at the list length and only prevents a vacuous
non-termination case (each step either consumes a character or a whole
separator). -/
def splitWordSep (word : List Char) : Nat → List Char → List Char →
    List (List Char)
  | 0, acc, _ => [acc.reverse]
  | _ + 1, acc, [] => [acc.reverse]
  | fuel + 1, acc, c :: rest =>
      match trySepMatch word (c :: rest) with
      | some remainder => acc.reverse :: splitWordSep word fuel [] remainder
      | none => splitWordSep word fuel (c :: acc) rest

/-- Split a condition string on the `and`/`or` separator word. -/
def splitCondParts (word : String) (s : String) : List String :=
  (splitWordSep word.data s.data.length [] s.data).map String.mk

/-- `_evaluate_condition` (`workflows.py:122-171`): compound `and`/`or`
splitting with short-circuit evaluation (Python's `all`/`any` over a
generator, so an exception in a later part propagates only if reached),
else the primitive evaluation.  `fuel` bounds the recursion depth as
Python's recursion limit does; each split part is strictly shorter than
the condition, so the top-level fuel below never runs out. -/
def evalCond (jl : String → Option PyVal) :
    Nat → String → PyVal → Except PyErr Bool
  | 0, _, _ => .error .recursionDepth
  | fuel + 1, cond, output =>
      if strContainsSub (lcStr cond) " and " then
        (splitCondParts "and" cond).foldl
          (fun acc p =>
            match acc with
            | .ok true => evalCond jl fuel (strTrim p) output
            | other => other) (.ok true)
      else if strContainsSub (lcStr cond) " or " then
        (splitCondParts "or" cond).foldl
          (fun acc p =>
            match acc with
            | .ok false => evalCond jl fuel (strTrim p) output
            | other => other) (.ok false)
      else evalPrimitive jl fuel cond output

/-- The output coercion at the top of `evaluate` (`workflows.py:101-110`):
a string is JSON-parsed; a dict result replaces it, any other parse result
leaves the string as is, and a parse failure wraps it as
`{text: s, raw: s}`. -/
def coerceOutput (jl : String → Option PyVal) (output : PyVal) : PyVal :=
  match output with
  | .str s =>
      match jl s with
      | some (.dict m) => .dict m
      | some _ => .str s
      | none => .dict [("text", .str s), ("raw", .str s)]
  | v => v

/-- `ConditionEvaluator.evaluate` up to its `try`: empty condition is
`True`; otherwise strip, coerce the output, and evaluate.  The result is
what the `try` block either returns or raises. -/
def evaluateExc (jl : String → Option PyVal) (cond : String) (output : PyVal) :
    Except PyErr Bool :=
  if cond = "" then .ok true
  else
    evalCond jl ((strTrim cond).length + 1) (strTrim cond)
      (coerceOutput jl output)

/-- `ConditionEvaluator.evaluate` (`workflows.py:81-120`): any exception
from the evaluation is caught and turned into `False`. -/
def condEvaluate (jl : String → Option PyVal) (cond : String)
    (output : PyVal) : Bool :=
  match evaluateExc jl cond output with
  | .ok b => b
  | .error _ => false

/-- Claim C4: the condition evaluator is total — for every condition
string and every output it returns `true` or `false` and never lets an
exception escape; whenever the inner evaluation raises (missing field
leading to a `None` comparison, type mismatch, unparseable value,
recursion limit), `evaluate` returns `false`. -/
theorem condition_evaluator_C4 (jl : String → Option PyVal) (cond : String)
    (output : PyVal) :
    (condEvaluate jl cond output = true ∨ condEvaluate jl cond output = false) ∧
    (∀ e, evaluateExc jl cond output = .error e →
      condEvaluate jl cond output = false) := by
  constructor
  · cases h : condEvaluate jl cond output
    · right; rfl
    · left; rfl
  · intro e he
    unfold condEvaluate
    rw [he]

/-- Witness for C4: `output.x > 5` against the empty dict compares `None`
with `5`, which raises a `TypeError` internally, and `evaluate` returns
`false`. -/
theorem condition_evaluator_C4_witness :
    evaluateExc (fun _ => none) "output.x > 5" (.dict []) =
      .error .typeError ∧
    condEvaluate (fun _ => none) "output.x > 5" (.dict []) = false := by
  refine ⟨rfl, ?_⟩
  exact (condition_evaluator_C4 (fun _ => none) "output.x > 5"
    (.dict [])).2 .typeError rfl

/-! # Workflow routing (src/loaders/workflows.py, WorkflowManager) -/

/-- `ConditionalEdge` (`workflows.py:230-255`). -/
structure ConditionalEdge where
  from_agent : String
  to_agent : String
  condition : Option String
  priority : Int
  deriving DecidableEq, Repr

/-- Python truthiness of `edge.condition`: `None` and `""` are falsy
(`if not edge.condition`). -/
def condFalsy (c : Option String) : Bool :=
  match c with
  | none => true
  | some s => s = ""

/-- Stable insertion keeping higher priorities first (a later element goes
after earlier elements of equal priority, as Python's stable
`sorted(..., key=priority, reverse=True)` does). -/
def insertByPriorityDesc (e : ConditionalEdge) :
    List ConditionalEdge → List ConditionalEdge
  | [] => [e]
  | x :: xs =>
      if x.priority < e.priority then e :: x :: xs
      else x :: insertByPriorityDesc e xs

/-- The edge ordering stored by `_create_custom_workflow`
(`workflows.py:556-560`): sorted by descending priority, declaration order
preserved among equals. -/
def sortEdgesDesc (l : List ConditionalEdge) : List ConditionalEdge :=
  l.foldl (fun acc e => insertByPriorityDesc e acc) []

/-- The `for edge in outgoing_edges` loop of `evaluate_next_agent`
(`workflows.py:623-641`): a falsy-condition edge is returned *immediately*;
a conditional edge is returned when its condition evaluates true. -/
def loopEdges (jl : String → Option PyVal) (output : PyVal) :
    List ConditionalEdge → Option String
  | [] => none
  | e :: rest =>
      if condFalsy e.condition then some e.to_agent
      else if condEvaluate jl (e.condition.getD "") output then
        some e.to_agent
      else loopEdges jl output rest

/-- `WorkflowManager.evaluate_next_agent` (`workflows.py:596-661`) over the
stored (priority-sorted) edge list: filter the outgoing edges, run the
loop, then the (dead) post-loop default-edge search. -/
def evaluateNextAgent (jl : String → Option PyVal)
    (edges : List ConditionalEdge) (current : String) (output : PyVal) :
    Option String :=
  let outgoing := edges.filter (fun e => e.from_agent == current)
  if outgoing.isEmpty then none
  else
    match loopEdges jl output outgoing with
    | some t => some t
    | none =>
        (outgoing.find? (fun e => condFalsy e.condition)).map
          (fun e => e.to_agent)

/-- Claim C5 fails on the code: with outgoing edges
`Triage → Fallback` (no condition, priority 2) and
`Triage → TechSupport` (condition `output.category == "technical"`,
priority 1), and an output whose `category` *is* `"technical"`,
`evaluate_next_agent` returns the unconditional edge's target `Fallback`
even though a conditional edge's condition evaluates true: the loop
returns an unconditional edge the moment it is reached in priority order
instead of holding it as a fallback (the post-loop default search at
`workflows.py:644-654` is unreachable).  The inline comment
"Unconditional edge - use as default/fallback" and the spec agree that the
conditional edge should have won. -/
theorem workflow_C5_code_bug :
    evaluateNextAgent (fun _ => none)
      (sortEdgesDesc
        [⟨"Triage", "TechSupport", some "output.category == \"technical\"", 1⟩,
         ⟨"Triage", "Fallback", none, 2⟩])
      "Triage" (.dict [("category", .str "technical")]) = some "Fallback" ∧
    condEvaluate (fun _ => none) "output.category == \"technical\""
      (.dict [("category", .str "technical")]) = true ∧
    sortEdgesDesc
        [⟨"Triage", "TechSupport", some "output.category == \"technical\"", 1⟩,
         ⟨"Triage", "Fallback", none, 2⟩] =
      [⟨"Triage", "Fallback", none, 2⟩,
       ⟨"Triage", "TechSupport", some "output.category == \"technical\"", 1⟩] := by
  refine ⟨rfl, rfl, rfl⟩

/-! # Chat history manager (src/memory/manager.py, ChatHistoryManager) -/

/-- The allowed message roles (`manager.py:233`). -/
def allowedRoles : List String :=
  ["system", "user", "assistant", "tool", "function"]

/-- Python `x == s` for a string constant `s`: no value of another type
compares equal to a string. -/
def pyEqStrConst (v : PyVal) (s : String) : Bool :=
  match v with
  | .str t => t = s
  | _ => false

/-- `isinstance(content, (str, list, type(None)))`. -/
def contentTypeOk (c : PyVal) : Bool :=
  match c with
  | .str _ => true
  | .list _ => true
  | .none_ => true
  | _ => false

/-- The per-message checks of `_validate_thread_data`
(`manager.py:227-242`): a message must be a dict; a present `role` must be
in the allowed set; a present `content` must be a string, list, or
`None`. -/
def validMessage (msg : PyVal) : Bool :=
  match msg with
  | .dict mm =>
      (match lookupS mm "role" with
        | none => true
        | some r => allowedRoles.any (fun s => pyEqStrConst r s)) &&
      (match lookupS mm "content" with
        | none => true
        | some c => contentTypeOk c)
  | _ => false

/-- One metadata field check of `_validate_thread_data`
(`manager.py:244-251`): if present, the value must be `None` or a
string. -/
def metadataFieldOk (m : List (String × PyVal)) (f : String) : Bool :=
  match lookupS m f with
  | none => true
  | some v =>
      match v with
      | .none_ => true
      | .str _ => true
      | _ => false

/-- `ChatHistoryManager._validate_thread_data` (`manager.py:203-253`). -/
def validateThreadData (td : PyVal) : Bool :=
  match td with
  | .dict m =>
      (match lookupS m "messages" with
        | none => true
        | some (.list msgs) => msgs.all validMessage
        | some _ => false) &&
      (["_created_at", "_updated_at", "_persisted_at"].all
        (fun f => metadataFieldOk m f))
  | _ => false

/-- Does a key start with an underscore? -/
def keyUnderscore (k : String) : Bool :=
  listStartsWith k.data "_".data

/-- Stripping the `_`-prefixed metadata keys before deserialization
(`manager.py:270-275`). -/
def stripMeta (m : List (String × PyVal)) : List (String × PyVal) :=
  m.filter (fun p => !keyUnderscore p.1)

/-- What `_restore_session` hands back: either a deserialized thread bound
to the chat id, or a fresh new session bound to the same chat id. -/
inductive RestoreResult (α : Type) where
  | newSession (chat_id : String)
  | restored (chat_id : String) (thread : α)
  deriving DecidableEq, Repr

/-- `ChatHistoryManager._restore_session` (`manager.py:255-300`):
schema-validate, strip metadata, deserialize (the framework's
`deserialize_thread` is the opaque `deser`; `none` models a raised
exception), then build the session — whose construction parses
`_created_at` with `datetime.fromisoformat` (`isoOk` models which strings
parse; a non-string present value raises).  Every caught exception falls
back to `_create_new_session(chat_id)`. -/
def restoreSession {α : Type} (deser : List (String × PyVal) → Option α)
    (isoOk : String → Bool) (chat_id : String) (td : PyVal) :
    RestoreResult α :=
  if !validateThreadData td then .newSession chat_id
  else
    match td with
    | .dict m =>
        match deser (stripMeta m) with
        | none => .newSession chat_id
        | some thread =>
            match lookupS m "_created_at" with
            | none => .restored chat_id thread
            | some (.str s) =>
                if isoOk s then .restored chat_id thread
                else .newSession chat_id
            | some _ => .newSession chat_id
    | _ => .newSession chat_id

/-- Claim C6: a payload restored from cache or persistence in which some
message carries a role outside {system, user, assistant, tool, function},
or a content that is not a string, list, or null, is never deserialized
into a thread: `_restore_session` creates a fresh new session bound to the
provided `chat_id` instead. -/
theorem memory_C6 {α : Type} (deser : List (String × PyVal) → Option α)
    (isoOk : String → Bool) (chat_id : String) (m : List (String × PyVal))
    (msgs : List PyVal) (msg : PyVal)
    (hm : lookupS m "messages" = some (.list msgs))
    (hmem : msg ∈ msgs)
    (hbad :
      (∃ mm r, msg = .dict mm ∧ lookupS mm "role" = some r ∧
        ∀ s ∈ allowedRoles, pyEqStrConst r s = false) ∨
      (∃ mm c, msg = .dict mm ∧ lookupS mm "content" = some c ∧
        contentTypeOk c = false)) :
    restoreSession deser isoOk chat_id (.dict m) = .newSession chat_id := by
  have hbadmsg : validMessage msg = false := by
    rcases hbad with ⟨mm, r, rfl, hrole, hall⟩ | ⟨mm, c, rfl, hcontent, hbadc⟩
    · have hany : allowedRoles.any (fun s => pyEqStrConst r s) = false := by
        rw [List.any_eq_false]
        intro s hs
        simp [hall s hs]
      simp [validMessage, hrole, hany]
    · simp only [validMessage, hcontent, hbadc, Bool.and_eq_false_iff]
      right
      trivial
  have hallmsgs : msgs.all validMessage = false := by
    cases hall : msgs.all validMessage
    · rfl
    · have := List.all_eq_true.mp hall msg hmem
      rw [hbadmsg] at this
      exact absurd this (by simp)
  have hvalid : validateThreadData (.dict m) = false := by
    simp [validateThreadData, hm, hallmsgs]
  simp [restoreSession, hvalid]

/-- Witness for C6: a payload whose single message has role "alien"; the
theorem is applied at this concrete payload and yields a fresh session. -/
theorem memory_C6_witness :
    lookupS [("messages", PyVal.list [.dict [("role", .str "alien")]])]
        "messages" = some (.list [.dict [("role", .str "alien")]]) ∧
    restoreSession (fun _ => some ()) (fun _ => true) "c1"
        (.dict [("messages", .list [.dict [("role", .str "alien")]])]) =
      .newSession "c1" := by
  refine ⟨rfl, ?_⟩
  exact memory_C6 (fun _ => some ()) (fun _ => true) "c1"
    [("messages", .list [.dict [("role", .str "alien")]])]
    [.dict [("role", .str "alien")]] (.dict [("role", .str "alien")])
    rfl (List.mem_singleton.mpr rfl)
    (Or.inl ⟨[("role", .str "alien")], .str "alien", rfl, rfl,
      by decide⟩)

/-- Python dict assignment `d[k] = v` on an ordered association list with
unique keys: replace in place, else append. -/
def insertS : List (String × PyVal) → String → PyVal → List (String × PyVal)
  | [], k, v => [(k, v)]
  | p :: t, k, v => if p.1 = k then (k, v) :: t else p :: insertS t k v

/-- Python `{**existing, **new}`: existing keys (in order) take `new`'s
value when `new` also has them; keys only in `new` are appended in
order. -/
def unionS (a b : List (String × PyVal)) : List (String × PyVal) :=
  (a.map (fun p =>
    match lookupS b p.1 with
    | some v => (p.1, v)
    | none => p)) ++
  (b.filter (fun q => !(a.any (fun p => p.1 == q.1))))

/-- Python `len()`: sized values only, else `TypeError`. -/
def pyLen : PyVal → Except PyErr Nat
  | .str s => .ok s.length
  | .list l => .ok l.length
  | .dict m => .ok m.length
  | _ => .error .typeError

/-- The dedupe key `str(msg.get("content", "")) + str(msg.get("timestamp", ""))`
(`manager.py:420`); `msg.get` on a non-dict raises. -/
def msgKey (msg : PyVal) : Except PyErr String :=
  match msg with
  | .dict mm =>
      .ok (pyStr 1000 ((lookupS mm "content").getD (.str "")) ++
        pyStr 1000 ((lookupS mm "timestamp").getD (.str "")))
  | _ => .error .attributeError

/-- The order-preserving dedupe loop of `_merge_thread_data`
(`manager.py:416-424`). -/
def dedupeMsgs : List PyVal → List String → Except PyErr (List PyVal)
  | [], _ => .ok []
  | msg :: rest, seen =>
      match msgKey msg with
      | .error e => .error e
      | .ok key =>
          if seen.contains key then dedupeMsgs rest seen
          else (dedupeMsgs rest (key :: seen)).map (fun l => msg :: l)

/-- `ChatHistoryManager._merge_thread_data` (`manager.py:385-433`):
`{**existing, **new}`, keep the existing `_created_at`, and when both
sides carry `messages` prefer the longer list (`len()` raising on unsized
values), falling back to the content+timestamp dedupe of the
concatenation (iterating a non-list pairing raises). -/
def mergeThreadData (existing neu : List (String × PyVal)) :
    Except PyErr (List (String × PyVal)) :=
  let merged0 := unionS existing neu
  let merged1 :=
    match lookupS existing "_created_at" with
    | some v => insertS merged0 "_created_at" v
    | none => merged0
  if (lookupS existing "messages").isSome ∧ (lookupS neu "messages").isSome
  then
    let em := (lookupS existing "messages").getD (.list [])
    let nm := (lookupS neu "messages").getD (.list [])
    match pyLen em, pyLen nm with
    | .ok le, .ok ln =>
        if le ≤ ln then .ok (insertS merged1 "messages" nm)
        else
          match em, nm with
          | .list eml, .list nml =>
              (dedupeMsgs (eml ++ nml) []).map
                (fun all => insertS merged1 "messages" (.list all))
          | _, _ => .error .typeError
    | .error e, _ => .error e
    | _, .error e => .error e
  else .ok merged1

/-- `existing.get("_merge_count", 0) + 1` (`manager.py:367`): Python `+ 1`
works on ints, bools and floats and raises otherwise. -/
def mergeCountPlusOne (v : PyVal) : Except PyErr PyVal :=
  match v with
  | .int n => .ok (.int (n + 1))
  | .bool b => .ok (.int ((if b then 1 else 0) + 1))
  | .float n d => .ok (.float (n + d) d)
  | _ => .error .typeError

/-- `ChatHistoryManager._persist_with_merge` (`manager.py:347-383`) with
the store reads/writes made explicit: `existing` is what
`persistence.get(chat_id)` returned, `nowIso` the `_persisted_at`
timestamp, `saveOk` what `persistence.save` returns.  The first component
is the blob handed to `persistence.save` (`none` when an exception was
caught and nothing was written); the second is the returned success
flag. -/
def persistWithMerge (existing : Option (List (String × PyVal)))
    (new_data : List (String × PyVal)) (nowIso : String) (saveOk : Bool) :
    Option (List (String × PyVal)) × Bool :=
  let mergedE : Except PyErr (List (String × PyVal)) :=
    match existing with
    | some ex =>
        match mergeThreadData ex new_data with
        | .error e => .error e
        | .ok merged =>
            match mergeCountPlusOne ((lookupS ex "_merge_count").getD (.int 0))
            with
            | .error e => .error e
            | .ok mc => .ok (insertS merged "_merge_count" mc)
    | none => .ok new_data
  match mergedE with
  | .error _ => (none, false)
  | .ok merged =>
      let final := insertS (insertS merged "_persisted" (.bool true))
        "_persisted_at" (.str nowIso)
      (some final, saveOk)

theorem lookupS_insertS (m : List (String × PyVal)) (k : String) (v : PyVal) :
    ∀ k2, lookupS (insertS m k v) k2 =
      if k2 = k then some v else lookupS m k2 := by
  induction m with
  | nil =>
      intro k2
      by_cases h : k2 = k
      · simp [insertS, lookupS, h]
      · have h2 : ¬ (k = k2) := fun hc => h hc.symm
        simp [insertS, lookupS, h, h2]
  | cons p t ih =>
      intro k2
      simp only [insertS]
      by_cases hp : p.1 = k
      · rw [if_pos hp]
        by_cases h : k2 = k
        · subst h
          simp [lookupS]
        · have h2 : ¬ (k = k2) := fun hc => h hc.symm
          have hpk2 : ¬ (p.1 = k2) := by rw [hp]; exact h2
          simp [lookupS, h, h2, hpk2]
      · rw [if_neg hp]
        by_cases hpk : p.1 = k2
        · have h2 : ¬ (k2 = k) := fun hc => hp (hpk.trans hc)
          simp [lookupS, hpk, h2]
        · by_cases h : k2 = k
          · simp [lookupS, hpk, h, ih, hp]
          · simp [lookupS, hpk, h, ih, hp]

theorem lookupS_mapFirst (b : List (String × PyVal)) :
    ∀ (t : List (String × PyVal)) (k : String),
    lookupS (t.map (fun q =>
        match lookupS b q.1 with
        | some v => (q.1, v)
        | none => q)) k =
      match lookupS t k with
      | none => none
      | some w =>
          match lookupS b k with
          | some v => some v
          | none => some w := by
  intro t
  induction t with
  | nil => intro k; simp [lookupS]
  | cons q t ih =>
      intro k
      by_cases h : q.1 = k
      · cases hb : lookupS b q.1 <;>
          simp [lookupS, h, hb, h ▸ hb]
      · cases hb : lookupS b q.1 <;>
          simp [lookupS, h, hb, ih]

theorem lookupS_unionS_self (a : List (String × PyVal)) (k : String) :
    lookupS (unionS a a) k = lookupS a k := by
  have hfilter :
      a.filter (fun q => !(a.any (fun p => p.1 == q.1))) = [] := by
    rw [List.filter_eq_nil]
    intro q hq
    have : a.any (fun p => p.1 == q.1) = true :=
      List.any_eq_true.mpr ⟨q, hq, by simp⟩
    simp [this]
  unfold unionS
  rw [hfilter, List.append_nil, lookupS_mapFirst a a k]
  cases h : lookupS a k <;> simp [h]

/-- Claim C7: persist-with-merge is idempotent on identical data.  For a
thread blob `a` (its `messages`, when present, a list; its `_merge_count`,
when present, an int — which every blob this code writes satisfies),
persisting when `a` is already the stored blob writes a blob that agrees
with the result of persisting `a` alone on every key other than the merge
counter, and whose `_merge_count` exceeds the stored blob's (0 when
absent) by exactly 1. -/
theorem memory_C7 (a : List (String × PyVal)) (nowIso : String)
    (saveOk : Bool)
    (hmsg : ∀ v, lookupS a "messages" = some v → ∃ l, v = PyVal.list l)
    (hmc : ∀ v, lookupS a "_merge_count" = some v → ∃ n, v = PyVal.int n) :
    ∃ w1 w2,
      (persistWithMerge (some a) a nowIso saveOk).1 = some w1 ∧
      (persistWithMerge none a nowIso saveOk).1 = some w2 ∧
      (∀ k, k ≠ "_merge_count" → lookupS w1 k = lookupS w2 k) ∧
      lookupS w1 "_merge_count" =
        some (.int ((match lookupS a "_merge_count" with
          | some (.int n) => n
          | _ => 0) + 1)) := by
  -- merging a blob with itself is lookup-equivalent to the blob
  have hmerge : ∃ mg, mergeThreadData a a = .ok mg ∧
      ∀ k, lookupS mg k = lookupS a k := by
    cases hmsgs : lookupS a "messages" with
    | none =>
        cases hc : lookupS a "_created_at" with
        | none =>
            refine ⟨unionS a a, ?_, ?_⟩
            · simp [mergeThreadData, hmsgs, hc]
            · exact fun k => lookupS_unionS_self a k
        | some cv =>
            refine ⟨insertS (unionS a a) "_created_at" cv, ?_, ?_⟩
            · simp [mergeThreadData, hmsgs, hc]
            · intro k
              rw [lookupS_insertS]
              by_cases hk : k = "_created_at"
              · subst hk; rw [if_pos rfl, hc]
              · rw [if_neg hk]; exact lookupS_unionS_self a k
    | some v =>
        obtain ⟨l, hv⟩ := hmsg v hmsgs
        subst hv
        cases hc : lookupS a "_created_at" with
        | none =>
            refine ⟨insertS (unionS a a) "messages" (.list l), ?_, ?_⟩
            · simp [mergeThreadData, hmsgs, hc, pyLen]
            · intro k
              rw [lookupS_insertS]
              by_cases hk : k = "messages"
              · subst hk; rw [if_pos rfl, hmsgs]
              · rw [if_neg hk]; exact lookupS_unionS_self a k
        | some cv =>
            refine ⟨insertS (insertS (unionS a a) "_created_at" cv)
              "messages" (.list l), ?_, ?_⟩
            · simp [mergeThreadData, hmsgs, hc, pyLen]
            · intro k
              rw [lookupS_insertS]
              by_cases hk : k = "messages"
              · subst hk; rw [if_pos rfl, hmsgs]
              · rw [if_neg hk, lookupS_insertS]
                by_cases hk2 : k = "_created_at"
                · subst hk2; rw [if_pos rfl, hc]
                · rw [if_neg hk2]; exact lookupS_unionS_self a k
  obtain ⟨mg, hmg, hmglook⟩ := hmerge
  -- the incremented merge counter
  have hmcv : ∃ n : Int,
      mergeCountPlusOne ((lookupS a "_merge_count").getD (.int 0)) =
        .ok (.int (n + 1)) ∧
      (match lookupS a "_merge_count" with
        | some (.int n') => n'
        | _ => 0) = n := by
    cases hmcl : lookupS a "_merge_count" with
    | none => exact ⟨0, by simp [mergeCountPlusOne], by simp⟩
    | some v =>
        obtain ⟨n, hv⟩ := hmc v hmcl
        subst hv
        exact ⟨n, by simp [mergeCountPlusOne], by simp⟩
  obtain ⟨n, hplus, hmatch⟩ := hmcv
  refine ⟨insertS (insertS (insertS mg "_merge_count" (.int (n + 1)))
      "_persisted" (.bool true)) "_persisted_at" (.str nowIso),
    insertS (insertS a "_persisted" (.bool true)) "_persisted_at"
      (.str nowIso), ?_, ?_, ?_, ?_⟩
  · simp [persistWithMerge, hmg, hplus]
  · simp [persistWithMerge]
  · intro k hk
    rw [lookupS_insertS, lookupS_insertS, lookupS_insertS, lookupS_insertS,
      lookupS_insertS]
    by_cases h1 : k = "_persisted_at"
    · simp [h1]
    · by_cases h2 : k = "_persisted"
      · simp [h1, h2]
      · simp only [if_neg h1, if_neg h2, if_neg hk]
        exact hmglook k
  · rw [lookupS_insertS,
      if_neg (by decide : ¬("_merge_count" = "_persisted_at")),
      lookupS_insertS, if_neg (by decide : ¬("_merge_count" = "_persisted")),
      lookupS_insertS, if_pos rfl, hmatch]

/-- Witness for C7: a two-message blob with `_merge_count = 4`; persisting
over itself agrees with persisting alone everywhere except the counter,
which becomes 5. -/
theorem memory_C7_witness :
    (∀ v, lookupS [("messages", PyVal.list [.dict [("content", .str "hi")]]),
        ("_created_at", .str "2024-01-01"), ("_merge_count", .int 4)]
        "messages" = some v → ∃ l, v = PyVal.list l) ∧
    (∃ w1 w2,
      (persistWithMerge
        (some [("messages", PyVal.list [.dict [("content", .str "hi")]]),
          ("_created_at", .str "2024-01-01"), ("_merge_count", .int 4)])
        [("messages", PyVal.list [.dict [("content", .str "hi")]]),
          ("_created_at", .str "2024-01-01"), ("_merge_count", .int 4)]
        "2024-06-01" true).1 = some w1 ∧
      (persistWithMerge none
        [("messages", PyVal.list [.dict [("content", .str "hi")]]),
          ("_created_at", .str "2024-01-01"), ("_merge_count", .int 4)]
        "2024-06-01" true).1 = some w2 ∧
      (∀ k, k ≠ "_merge_count" → lookupS w1 k = lookupS w2 k) ∧
      lookupS w1 "_merge_count" =
        some (.int ((match lookupS
          [("messages", PyVal.list [.dict [("content", .str "hi")]]),
            ("_created_at", .str "2024-01-01"), ("_merge_count", .int 4)]
          "_merge_count" with
          | some (.int n) => n
          | _ => 0) + 1))) := by
  constructor
  · intro v hv
    simp [lookupS] at hv
    exact ⟨[.dict [("content", .str "hi")]], hv.symm⟩
  · exact memory_C7 _ "2024-06-01" true
      (fun v hv => by
        simp [lookupS] at hv
        exact ⟨[.dict [("content", .str "hi")]], hv.symm⟩)
      (fun v hv => by
        simp [lookupS] at hv
        exact ⟨4, hv.symm⟩)

/-- The summarization settings (`SummarizationConfig`, `manager.py:35-42`). -/
structure SummarizationConfigM where
  enabled : Bool
  max_tokens : Nat
  recent_messages_to_keep : Nat
  deriving DecidableEq, Repr

/-- `ChatSession` (`manager.py:53-66`) restricted to the fields
`summarize_if_needed` touches; the thread is its serialized message
list. -/
structure ChatSessionM where
  thread : List PyVal
  message_count : Nat
  summarized : Bool
  summary_count : Nat
  estimated_tokens : Nat
  deriving Repr

/-- Character count of one content block
(`estimate_thread_tokens`, `manager.py:621-627`); `len(block['text'])`
raises on an unsized value. -/
def blockChars (block : PyVal) : Except PyErr Nat :=
  match block with
  | .dict bm =>
      match lookupS bm "text" with
      | some v => pyLen v
      | none => .ok 0
  | .str s => .ok s.length
  | _ => .ok 0

/-- Character count contributed by one message
(`manager.py:611-627`). -/
def msgChars (msg : PyVal) : Except PyErr Nat :=
  let content : PyVal :=
    match msg with
    | .dict mm => (lookupS mm "content").getD (.str "")
    | m => .str (pyStr 1000 m)
  match content with
  | .str s => .ok s.length
  | .list blocks =>
      blocks.foldl
        (fun acc b =>
          match acc with
          | .error e => .error e
          | .ok t => (blockChars b).map (fun c => t + c)) (.ok 0)
  | _ => .ok 0

/-- `ChatHistoryManager.estimate_thread_tokens` (`manager.py:583-633`):
`total_chars // 4`, with any internal exception caught and turned into
0. -/
def estimateThreadTokens (messages : List PyVal) : Nat :=
  match
    messages.foldl
      (fun (acc : Except PyErr Nat) msg =>
        match acc with
        | .error e => .error e
        | .ok t => (msgChars msg).map (fun c => t + c)) (Except.ok 0)
  with
  | .ok total => total / 4
  | .error _ => 0

/-- `ChatHistoryManager.needs_summarization` (`manager.py:635-656`):
updates the session's token estimate as a side effect. -/
def needsSummarization (cfg : SummarizationConfigM) (session : ChatSessionM) :
    Bool × ChatSessionM :=
  if cfg.enabled then
    let est := estimateThreadTokens session.thread
    (decide (cfg.max_tokens < est), { session with estimated_tokens := est })
  else (false, session)

/-- The synthetic system message built by `_create_summarized_thread`
(`manager.py:874-877`). -/
def summaryMessage (summary : String) : PyVal :=
  .dict [("role", .str "system"),
    ("content", .str ("[CONVERSATION SUMMARY]\n" ++ summary ++
      "\n[END SUMMARY]\n\nThe conversation continues below:"))]

/-- `ChatHistoryManager.summarize_if_needed` (`manager.py:658-761`).
`genSummary` stands for `_generate_summary` (the LM call; `none` for a
falsy result), `createOk` for whether `_create_summarized_thread`
succeeds.  The cache write of the subsequent `save_thread` is outside the
model; the returned session reflects the thread replacement, flag,
counter, and token re-estimate. -/
def summarizeIfNeeded (cfg : SummarizationConfigM)
    (genSummary : List PyVal → Option String) (createOk : Bool)
    (session : ChatSessionM) : Bool × ChatSessionM :=
  let p := needsSummarization cfg session
  if p.1 then
    let s1 := p.2
    let messages := s1.thread
    if messages.length ≤ cfg.recent_messages_to_keep then (false, s1)
    else
      let keep := cfg.recent_messages_to_keep
      let old :=
        if 0 < keep then messages.take (messages.length - keep) else messages
      let recent :=
        if 0 < keep then messages.drop (messages.length - keep) else []
      match genSummary old with
      | none => (false, s1)
      | some summary =>
          if summary = "" then (false, s1)
          else if createOk then
            let newThread := summaryMessage summary :: recent
            (true,
              { s1 with
                  thread := newThread
                  summarized := true
                  summary_count := s1.summary_count + 1
                  estimated_tokens := estimateThreadTokens newThread })
          else (false, s1)
  else (false, p.2)

/-- Claim C8: when the thread's message list has length at most
`recent_messages_to_keep`, `summarize_if_needed` returns `false` and
leaves the session's thread unchanged — even when the estimated tokens
exceed `max_tokens` and summarization is enabled (the theorem quantifies
over every configuration and summarizer outcome). -/
theorem memory_C8 (cfg : SummarizationConfigM)
    (genSummary : List PyVal → Option String) (createOk : Bool)
    (session : ChatSessionM)
    (hlen : session.thread.length ≤ cfg.recent_messages_to_keep) :
    (summarizeIfNeeded cfg genSummary createOk session).1 = false ∧
    (summarizeIfNeeded cfg genSummary createOk session).2.thread =
      session.thread := by
  unfold summarizeIfNeeded needsSummarization
  by_cases hen : cfg.enabled
  · by_cases hneed :
        cfg.max_tokens < estimateThreadTokens session.thread
    · simp [hen, hneed, hlen]
    · simp [hen, hneed]
  · simp [hen]

/-- Witness for C8: summarization enabled with `max_tokens = 0`, a
2-message thread, `recent_messages_to_keep = 5`: the estimate (3 tokens)
exceeds the budget, yet nothing is summarized and the thread stays as it
was. -/
theorem memory_C8_witness :
    ([PyVal.dict [("role", .str "user"), ("content", .str "hello, world")],
      PyVal.dict [("role", .str "assistant"),
        ("content", .str "hi")]].length ≤ 5) ∧
    (0 : Nat) <
      estimateThreadTokens
        [PyVal.dict [("role", .str "user"), ("content", .str "hello, world")],
          PyVal.dict [("role", .str "assistant"), ("content", .str "hi")]] ∧
    (summarizeIfNeeded ⟨true, 0, 5⟩ (fun _ => some "summary") true
        ⟨[PyVal.dict [("role", .str "user"), ("content", .str "hello, world")],
          PyVal.dict [("role", .str "assistant"), ("content", .str "hi")]],
          2, false, 0, 0⟩).1 = false ∧
    (summarizeIfNeeded ⟨true, 0, 5⟩ (fun _ => some "summary") true
        ⟨[PyVal.dict [("role", .str "user"), ("content", .str "hello, world")],
          PyVal.dict [("role", .str "assistant"), ("content", .str "hi")]],
          2, false, 0, 0⟩).2.thread =
      [PyVal.dict [("role", .str "user"), ("content", .str "hello, world")],
        PyVal.dict [("role", .str "assistant"), ("content", .str "hi")]] := by
  have h := memory_C8 ⟨true, 0, 5⟩ (fun _ => some "summary") true
    ⟨[PyVal.dict [("role", .str "user"), ("content", .str "hello, world")],
      PyVal.dict [("role", .str "assistant"), ("content", .str "hi")]],
      2, false, 0, 0⟩ (by decide)
  exact ⟨by decide, by decide, h.1, h.2⟩
